import Mathlib

/-!
Verification of the audit-trail package: a shallow embedding of the entry
model, the fluent builder, the validation service and the document-store
repository, together with proofs about the properties the package is
documented to have.

Conventions of the embedding:
- Go strings are Lean String; the Go zero value is the empty string.
- time.Time is modelled as an Int instant; the Go zero time is 0.
- time.Duration is an Int (nanoseconds).
- A Go error is an Option String carrying the message; none is the nil error.
- primitive.ObjectID is its 24-character hex form; the zero ObjectID is the
  all-zeros hex string.
- The Mongo collection is modelled as a List AuditEntry; the driver calls
  (InsertOne, CountDocuments, Find with sort or skip or limit, FindOne) are
  given their documented meaning over that list.
- Blocking effects are made explicit: Insert takes the per-attempt outcome of
  collection.InsertOne as a function argument and returns an instrumented
  trace recording how many attempts were made and which delays were slept.
-/

set_option linter.unusedVariables false

/-- A Mongo object identifier, modelled by its 24-character hex form. -/
structure ObjectID where
  hex : String
deriving DecidableEq, Repr

/-- The zero primitive.ObjectID (12 zero bytes). -/
def ObjectID.zero : ObjectID := ⟨"000000000000000000000000"⟩

/-- primitive.ObjectID.IsZero: whether the id is the zero value. -/
def ObjectID.isZero (o : ObjectID) : Bool := o == ObjectID.zero

/-- An opaque stand-in for a Go any value carried in metadata and field
changes; the claims never inspect these values. -/
structure GoAny where
  val : String
deriving DecidableEq, Repr

/-- ActorType is a Go string type. -/
abbrev ActorType := String

/-- AuditAction is a Go string type. -/
abbrev AuditAction := String

/-- ActorTypeUser constant from types.go. -/
def ActorTypeUser : ActorType := "user"

/-- ActorTypeSystem constant from types.go. -/
def ActorTypeSystem : ActorType := "system"

/-- ActorTypeService constant from types.go. -/
def ActorTypeService : ActorType := "service"

/-- ActorTypeAPI constant from types.go. -/
def ActorTypeAPI : ActorType := "api"

/-- ActorTypeAdmin constant from types.go. -/
def ActorTypeAdmin : ActorType := "admin"

/-- ActionCreate constant from types.go. -/
def ActionCreate : AuditAction := "create"

/-- ActionUpdate constant from types.go. -/
def ActionUpdate : AuditAction := "update"

/-- ActionDelete constant from types.go. -/
def ActionDelete : AuditAction := "delete"

/-- ActionLogin constant from types.go. -/
def ActionLogin : AuditAction := "login"

/-- ActionLogout constant from types.go. -/
def ActionLogout : AuditAction := "logout"

/-- ActionView constant from types.go. -/
def ActionView : AuditAction := "view"

/-- ActionExport constant from types.go. -/
def ActionExport : AuditAction := "export"

/-- Actor from types.go: who or what performed the action. -/
structure Actor where
  id : String
  type : ActorType
  name : String
  sessionID : String
deriving DecidableEq, Repr

/-- AuditResource from types.go: the target resource of the action. -/
structure AuditResource where
  type : String
  id : String
  name : String
deriving DecidableEq, Repr

/-- FieldChange from types.go: a change to a specific field. -/
structure FieldChange where
  field : String
  oldValue : Option GoAny
  newValue : Option GoAny
deriving DecidableEq, Repr

/-- AuditEntry from types.go: a single audit log entry. -/
structure AuditEntry where
  id : ObjectID
  timestamp : Int
  action : AuditAction
  actor : Actor
  resource : AuditResource
  changes : List FieldChange
  metadata : List (String × GoAny)
  ipAddress : String
  userAgent : String
  success : Bool
  errorMsg : String
deriving DecidableEq, Repr

/-- AuditQuery from types.go: query parameters for searching audit logs. -/
structure AuditQuery where
  actorID : String
  actorType : ActorType
  sessionID : String
  actions : List AuditAction
  resourceType : String
  resourceID : String
  startTime : Option Int
  endTime : Option Int
  success : Option Bool
  limit : Int
  offset : Int
deriving DecidableEq, Repr

/-- AuditQueryResult from types.go: the result of an audit query. -/
structure AuditQueryResult where
  entries : List AuditEntry
  total : Int
  hasMore : Bool
deriving DecidableEq, Repr

/-- Config from config.go (durations in nanoseconds). -/
structure Config where
  mongoURI : String
  databaseName : String
  collectionName : String
  maxPoolSize : Nat
  minPoolSize : Nat
  connectTimeout : Int
  maxRetries : Int
  retryDelay : Int
  batchSize : Int
  enableIndexes : Bool
deriving DecidableEq, Repr

/-- DefaultConfig from config.go. -/
def DefaultConfig : Config :=
  { mongoURI := "mongodb://localhost:27017"
    databaseName := "audit"
    collectionName := "audit_logs"
    maxPoolSize := 100
    minPoolSize := 5
    connectTimeout := 10000000000
    maxRetries := 3
    retryDelay := 1000000000
    batchSize := 1000
    enableIndexes := true }

/-- The builder state from builder.go. Only the entry being accumulated is
modelled; the bound service handle is untouched by every setter and is not
needed by any property proved here. -/
structure AuditBuilder where
  entry : AuditEntry
deriving DecidableEq, Repr

/-- AuditBuilder.Success from builder.go: sets the success status to the
given value, unconditionally. -/
def AuditBuilder.Success (b : AuditBuilder) (success : Bool) : AuditBuilder :=
  { b with entry := { b.entry with success := success } }

/-- AuditBuilder.Error from builder.go: with a non-nil error (some msg) it
records the message in ErrorMsg and sets Success to false; with a nil error
(none) it leaves the builder unchanged. -/
def AuditBuilder.Error (b : AuditBuilder) (err : Option String) : AuditBuilder :=
  match err with
  | some msg => { b with entry := { b.entry with errorMsg := msg, success := false } }
  | none => b

/-- AuditBuilder.Build from builder.go: returns the accumulated entry. -/
def AuditBuilder.Build (b : AuditBuilder) : AuditEntry := b.entry

/-- One clause of a Mongo filter document, as built by the repository:
an equality on a string-valued field, an equality on the success flag,
a membership (dollar-in) clause, or a range clause on the timestamp with
optional inclusive lower (dollar-gte) and upper (dollar-lte) bounds. -/
inductive FilterClause where
  | eqStr (field : String) (value : String)
  | eqBool (field : String) (value : Bool)
  | inList (field : String) (values : List String)
  | timeRange (field : String) (lb : Option Int) (ub : Option Int)
deriving DecidableEq, Repr

/-- A Mongo filter document (bson.M in the Go code): the conjunction of its clauses. -/
abbrev BsonM := List FilterClause

/-- mongoRepository.buildFilter from mongo_repo.go, clause for clause in the
order the Go code adds the keys. -/
def mongoRepository.buildFilter (query : AuditQuery) : BsonM :=
  (if query.actorID ≠ "" then [FilterClause.eqStr "actor.id" query.actorID] else []) ++
  (if query.actorType ≠ "" then [FilterClause.eqStr "actor.type" query.actorType] else []) ++
  (if query.sessionID ≠ "" then [FilterClause.eqStr "actor.session_id" query.sessionID] else []) ++
  (if query.actions.length > 0 then [FilterClause.inList "action" query.actions] else []) ++
  (if query.resourceType ≠ "" then [FilterClause.eqStr "resource.type" query.resourceType] else []) ++
  (if query.resourceID ≠ "" then [FilterClause.eqStr "resource.id" query.resourceID] else []) ++
  (match query.success with
   | some b => [FilterClause.eqBool "success" b]
   | none => []) ++
  (if query.startTime.isSome || query.endTime.isSome then
     [FilterClause.timeRange "timestamp" query.startTime query.endTime]
   else [])

/-- Projection of the string-valued document fields addressed by the
filters, following the bson tags in types.go. -/
def stringField (e : AuditEntry) : String → Option String
  | "action" => some e.action
  | "actor.id" => some e.actor.id
  | "actor.type" => some e.actor.type
  | "actor.session_id" => some e.actor.sessionID
  | "resource.type" => some e.resource.type
  | "resource.id" => some e.resource.id
  | _ => none

/-- Mongo matching semantics of one filter clause against an entry. -/
def FilterClause.holds (c : FilterClause) (e : AuditEntry) : Bool :=
  match c with
  | FilterClause.eqStr f v => stringField e f == some v
  | FilterClause.eqBool f v => f == "success" && e.success == v
  | FilterClause.inList f vs =>
    (match stringField e f with
     | some x => vs.contains x
     | none => false)
  | FilterClause.timeRange f lb ub =>
    f == "timestamp" &&
    (match lb with
     | some l => decide (l ≤ e.timestamp)
     | none => true) &&
    (match ub with
     | some u => decide (e.timestamp ≤ u)
     | none => true)

/-- A document matches a filter when every clause holds. -/
def matchesFilter (fl : BsonM) (e : AuditEntry) : Bool :=
  fl.all (fun c => c.holds e)

/-- Newest-first ordering on entries: the left entry has the later (or
equal) timestamp. -/
def tsDesc (a b : AuditEntry) : Prop := b.timestamp ≤ a.timestamp

instance : DecidableRel tsDesc :=
  fun a b => inferInstanceAs (Decidable (b.timestamp ≤ a.timestamp))

instance : IsTotal AuditEntry tsDesc :=
  ⟨fun a b => le_total b.timestamp a.timestamp⟩

instance : IsTrans AuditEntry tsDesc :=
  ⟨fun _ _ _ h1 h2 => le_trans h2 h1⟩

/-- The timestamp-descending sort the driver applies for
SetSort (timestamp, -1); ties are broken arbitrarily, here by the stable
insertion sort. -/
def sortByTimestampDesc (l : List AuditEntry) : List AuditEntry :=
  List.insertionSort tsDesc l

/-- The documents of the collection matching the filter built from the
query: what CountDocuments counts, ignoring pagination. -/
def queryMatches (store : List AuditEntry) (query : AuditQuery) : List AuditEntry :=
  store.filter (matchesFilter (mongoRepository.buildFilter query))

/-- The page the driver Find call returns inside FindByQuery: the matches
sorted newest first, with skip applied only when Offset is positive and
limit applied only when Limit is positive (skip before limit, per the
driver). -/
def queryPage (store : List AuditEntry) (query : AuditQuery) : List AuditEntry :=
  let sorted := sortByTimestampDesc (queryMatches store query)
  let afterSkip := if 0 < query.offset then sorted.drop query.offset.toNat else sorted
  if 0 < query.limit then afterSkip.take query.limit.toNat else afterSkip

/-- mongoRepository.FindByQuery from mongo_repo.go over the collection
model: CountDocuments on the filter gives Total, the Find call gives the
page, and HasMore is set per the final check in the Go code. -/
def mongoRepository.FindByQuery (store : List AuditEntry) (query : AuditQuery) :
    AuditQueryResult :=
  ⟨queryPage store query,
   ((queryMatches store query).length : Int),
   decide (0 < query.limit) &&
     decide (query.offset + ((queryPage store query).length : Int) <
       ((queryMatches store query).length : Int))⟩

/-- Whether a string is a syntactically valid ObjectID hex digit. -/
def isHexDigit (c : Char) : Bool :=
  (decide ('0' ≤ c) && decide (c ≤ '9')) ||
  (decide ('a' ≤ c) && decide (c ≤ 'f')) ||
  (decide ('A' ≤ c) && decide (c ≤ 'F'))

/-- Whether a string is a syntactically valid document identifier:
exactly 24 hexadecimal characters, as required by the driver. -/
def validObjectIDHex (s : String) : Bool :=
  s.length == 24 && s.toList.all isHexDigit

/-- primitive.ObjectIDFromHex: parses the 24-character hex form, failing
on any other string. -/
def ObjectIDFromHex (s : String) : Except String ObjectID :=
  if validObjectIDHex s then Except.ok ⟨s⟩
  else Except.error "the provided hex string is not a valid ObjectID"

/-- mongoRepository.FindByID from mongo_repo.go over the collection model:
an unparsable id is an invalid-ID-format error; FindOne on the id filter
either finds the entry (ok some) or reports ErrNoDocuments, which the code
turns into the (nil, nil) not-found sentinel, here ok none. -/
def mongoRepository.FindByID (store : List AuditEntry) (id : String) :
    Except String (Option AuditEntry) :=
  match ObjectIDFromHex id with
  | Except.error e => Except.error ("invalid ID format: " ++ e)
  | Except.ok oid =>
    match store.find? (fun entry => entry.id == oid) with
    | some entry => Except.ok (some entry)
    | none => Except.ok none

/-- The fixed filter mongoRepository.FindByActor builds: equality on
actor.id always, plus equality on actor.type only when the given type is
non-empty. -/
def actorFilter (actorID : String) (actorType : ActorType) : BsonM :=
  FilterClause.eqStr "actor.id" actorID ::
    (if actorType ≠ "" then [FilterClause.eqStr "actor.type" actorType] else [])

/-- mongoRepository.FindByActor from mongo_repo.go over the collection
model: sorted newest first, limit applied only when positive. -/
def mongoRepository.FindByActor (store : List AuditEntry) (actorID : String)
    (actorType : ActorType) (limit : Int) : List AuditEntry :=
  let sorted := sortByTimestampDesc (store.filter (matchesFilter (actorFilter actorID actorType)))
  if 0 < limit then sorted.take limit.toNat else sorted

/-- How the retry loop in mongoRepository.Insert ended: success is the
return-nil exit taken inside the loop when an attempt succeeds; exhausted
carries the final value of the err variable when the loop ran out of
iterations. -/
inductive LoopExit where
  | success
  | exhausted (lastErr : Option String)
deriving DecidableEq, Repr

/-- Instrumented outcome of the retry loop: how many InsertOne attempts
were made, the list of delays slept (one element per sleep call), and how
the loop exited. -/
structure InsertTrace where
  attempts : Nat
  sleeps : List Int
  exit : LoopExit
deriving DecidableEq, Repr

/-- The retry loop of mongoRepository.Insert: attempt is the loop counter,
remaining the number of iterations the loop condition still allows.
insertOne gives the outcome of collection.InsertOne on each attempt
(none is a nil error). A sleep of retryDelay happens after a failed
attempt exactly when another iteration follows, mirroring the
attempt-below-MaxRetries guard in the Go code. -/
def attemptLoop (insertOne : Nat → Option String) (retryDelay : Int) :
    Nat → Nat → InsertTrace
  | _, 0 => ⟨0, [], LoopExit.exhausted none⟩
  | attempt, remaining + 1 =>
    match insertOne attempt with
    | none => ⟨1, [], LoopExit.success⟩
    | some e =>
      match remaining with
      | 0 => ⟨1, [], LoopExit.exhausted (some e)⟩
      | r + 1 =>
        let t := attemptLoop insertOne retryDelay (attempt + 1) (r + 1)
        ⟨t.attempts + 1, retryDelay :: t.sleeps, t.exit⟩

/-- The default-filling preamble of mongoRepository.Insert: a zero
timestamp becomes the current time, a zero id becomes a fresh ObjectID. -/
def fillDefaults (now : Int) (newID : ObjectID) (entry : AuditEntry) : AuditEntry :=
  let e1 := if entry.timestamp == 0 then { entry with timestamp := now } else entry
  if e1.id.isZero then { e1 with id := newID } else e1

/-- The wrapped error message mongoRepository.Insert returns when the loop
exhausts all attempts. -/
def wrapAttemptMsg (maxRetries : Int) (lastErr : Option String) : String :=
  "failed to insert audit entry after " ++ toString (maxRetries + 1) ++ " attempts: " ++
    (match lastErr with
     | some e => e
     | none => "%!w(<nil>)")

/-- Instrumented result of mongoRepository.Insert: the attempt count, the
slept delays, and the returned Go error (none is nil). -/
structure InsertResult where
  attempts : Nat
  sleeps : List Int
  err : Option String
deriving DecidableEq, Repr

/-- The return statements after the retry loop of mongoRepository.Insert:
a success inside the loop returned nil; exhaustion returns the last error
wrapped with the attempt count. -/
def finishInsert (maxRetries : Int) (t : InsertTrace) : InsertResult :=
  match t.exit with
  | LoopExit.success => ⟨t.attempts, t.sleeps, none⟩
  | LoopExit.exhausted le => ⟨t.attempts, t.sleeps, some (wrapAttemptMsg maxRetries le)⟩

/-- mongoRepository.Insert from mongo_repo.go: fills defaults, then runs
the retry loop for MaxRetries plus one iterations (none when MaxRetries is
negative, matching the Go loop condition). now and newID stand for the
time.Now and NewObjectID effects; insertOne gives the outcome of
collection.InsertOne per attempt for the entry being written. -/
def mongoRepository.Insert (config : Config) (now : Int) (newID : ObjectID)
    (insertOne : AuditEntry → Nat → Option String) (entry : AuditEntry) : InsertResult :=
  let filled := fillDefaults now newID entry
  let t := attemptLoop (insertOne filled) config.retryDelay 0 (config.maxRetries + 1).toNat
  finishInsert config.maxRetries t

/-- The per-attempt outcome of collection.InsertOne under a context that
is already cancelled: the driver fails every call with the context
cancellation error. -/
def cancelledInsertOne : AuditEntry → Nat → Option String :=
  fun _ _ => some "context canceled"

/-- Membership of an actor type in the closed enum, as checked by the
switch statements in the service. -/
def validActorType (t : ActorType) : Bool :=
  t == ActorTypeUser || t == ActorTypeSystem || t == ActorTypeService ||
  t == ActorTypeAPI || t == ActorTypeAdmin

/-- Membership of an action in the closed enum, as checked by the switch
statements in the service. -/
def validAction (a : AuditAction) : Bool :=
  a == ActionCreate || a == ActionUpdate || a == ActionDelete || a == ActionLogin ||
  a == ActionLogout || a == ActionView || a == ActionExport

/-- auditService.validateAuditEntry from the service source, check for
check in Go order; some msg is the returned error, none is nil. -/
def auditService.validateAuditEntry (entry : AuditEntry) : Option String :=
  if entry.action == "" then some "action cannot be empty"
  else if entry.actor.id == "" then some "actor ID cannot be empty"
  else if entry.actor.type == "" then some "actor type cannot be empty"
  else if entry.resource.type == "" then some "resource type cannot be empty"
  else if entry.resource.id == "" then some "resource ID cannot be empty"
  else if !(validActorType entry.actor.type) then some ("invalid actor type: " ++ entry.actor.type)
  else if !(validAction entry.action) then some ("invalid action: " ++ entry.action)
  else none

/-- Whether two optional instants are both present with the first strictly
after the second: the StartTime.After(EndTime) test of the service. -/
def startAfterEnd (startTime endTime : Option Int) : Bool :=
  match startTime, endTime with
  | some s, some e => decide (e < s)
  | _, _ => false

/-- auditService.validateAuditQuery from the service source, check for
check in Go order. -/
def auditService.validateAuditQuery (query : AuditQuery) : Option String :=
  if query.limit < 0 then some "limit cannot be negative"
  else if query.offset < 0 then some "offset cannot be negative"
  else if startAfterEnd query.startTime query.endTime then some "start time cannot be after end time"
  else if query.actorType != "" && !(validActorType query.actorType) then
    some ("invalid actor type: " ++ query.actorType)
  else
    match query.actions.find? (fun a => !(validAction a)) with
    | some a => some ("invalid action: " ++ a)
    | none => none

/-- auditService.LogAction, instrumented: error msg means validation
rejected the entry and Repository.Insert was never called; ok e means
validation passed and the entry e was handed unchanged to
Repository.Insert (whose own result is the write path modelled by
mongoRepository.Insert). -/
def auditService.LogAction (entry : AuditEntry) : Except String AuditEntry :=
  match auditService.validateAuditEntry entry with
  | some msg => Except.error ("invalid audit entry: " ++ msg)
  | none => Except.ok entry

/-- auditService.GetHistory over the collection model: a validation
failure is reported without calling Repository.FindByQuery; otherwise the
query is delegated to it. -/
def auditService.GetHistory (store : List AuditEntry) (query : AuditQuery) :
    Except String AuditQueryResult :=
  match auditService.validateAuditQuery query with
  | some msg => Except.error ("invalid query: " ++ msg)
  | none => Except.ok (mongoRepository.FindByQuery store query)

/-- auditService.GetByID over the collection model. -/
def auditService.GetByID (store : List AuditEntry) (id : String) :
    Except String (Option AuditEntry) :=
  if id == "" then Except.error "id cannot be empty"
  else mongoRepository.FindByID store id

/-- auditService.GetActorHistory over the collection model. -/
def auditService.GetActorHistory (store : List AuditEntry) (actorID : String)
    (actorType : ActorType) (limit : Int) : Except String (List AuditEntry) :=
  if actorID == "" then Except.error "actor ID cannot be empty"
  else if limit < 0 then Except.error "limit cannot be negative"
  else Except.ok (mongoRepository.FindByActor store actorID actorType limit)

/-- The entry defects named by the spec: empty action, actor id, actor
type, resource type or resource id, or an actor type or action outside the
closed enums. Stated from the claim wording, to be compared with the code
validator. -/
def entryDefect (entry : AuditEntry) : Bool :=
  entry.action == "" || entry.actor.id == "" || entry.actor.type == "" ||
  entry.resource.type == "" || entry.resource.id == "" ||
  !(validActorType entry.actor.type) || !(validAction entry.action)

/-- The query defects named by the spec: negative limit, negative offset,
start strictly after end when both are set, a non-empty actor type outside
the closed enum, or any listed action outside the closed enum. Stated from
the claim wording, to be compared with the code validator. -/
def queryDefect (query : AuditQuery) : Bool :=
  decide (query.limit < 0) || decide (query.offset < 0) ||
  startAfterEnd query.startTime query.endTime ||
  (query.actorType != "" && !(validActorType query.actorType)) ||
  query.actions.any (fun a => !(validAction a))

/-- A concrete ObjectID used by the concrete instances below. -/
def oid1 : ObjectID := ⟨"507f1f77bcf86cd799439011"⟩

/-- A second concrete ObjectID. -/
def oid2 : ObjectID := ⟨"507f1f77bcf86cd799439012"⟩

/-- A concrete ObjectID distinct from the ids stored in the sample
collection. -/
def oidFresh : ObjectID := ⟨"507f1f77bcf86cd799439099"⟩

/-- A concrete valid entry: a login by user u1 on session s1. -/
def entryA : AuditEntry :=
  { id := oid1
    timestamp := 100
    action := ActionLogin
    actor := { id := "u1", type := ActorTypeUser, name := "User One", sessionID := "s1" }
    resource := { type := "session", id := "s1", name := "User Session" }
    changes := []
    metadata := []
    ipAddress := "192.168.1.1"
    userAgent := ""
    success := true
    errorMsg := "" }

/-- A second concrete valid entry, newer than entryA. -/
def entryB : AuditEntry :=
  { id := oid2
    timestamp := 200
    action := ActionUpdate
    actor := { id := "u1", type := ActorTypeUser, name := "User One", sessionID := "s1" }
    resource := { type := "user", id := "u2", name := "Profile" }
    changes := [{ field := "email", oldValue := some ⟨"a"⟩, newValue := some ⟨"b"⟩ }]
    metadata := []
    ipAddress := ""
    userAgent := ""
    success := true
    errorMsg := "" }

/-- A concrete invalid entry: the actor id is empty. -/
def badEntry : AuditEntry :=
  { entryA with actor := { id := "", type := ActorTypeUser, name := "", sessionID := "" } }

/-- A concrete two-entry collection. -/
def sampleStore : List AuditEntry := [entryA, entryB]

/-- A concrete builder state holding entryA. -/
def sampleBuilder : AuditBuilder := ⟨entryA⟩

/-- The query with every field unset, the Go zero value of AuditQuery. -/
def emptyQuery : AuditQuery :=
  { actorID := ""
    actorType := ""
    sessionID := ""
    actions := []
    resourceType := ""
    resourceID := ""
    startTime := none
    endTime := none
    success := none
    limit := 0
    offset := 0 }

/-- A concrete query with zero limit and positive offset. -/
def zeroLimitOffsetQuery : AuditQuery := { emptyQuery with limit := 0, offset := 1 }

/-- A concrete paginated query: limit one, offset one. -/
def pageQuery : AuditQuery := { emptyQuery with limit := 1, offset := 1 }

/-- A concrete query whose start and end time coincide. -/
def equalTimesQuery : AuditQuery := { emptyQuery with startTime := some 5, endTime := some 5 }

/-- A concrete query with a negative limit. -/
def negativeLimitQuery : AuditQuery := { emptyQuery with limit := -1 }

/-- A concrete configuration with one retry and a five-unit delay. -/
def retryOnceConfig : Config := { DefaultConfig with maxRetries := 1, retryDelay := 5 }

/-- A concrete configuration with two retries and a seven-unit delay. -/
def retryTwiceConfig : Config := { DefaultConfig with maxRetries := 2, retryDelay := 7 }

/-- A concrete InsertOne outcome: the first attempt fails transiently, every
later attempt succeeds. -/
def failOnceInsertOne : AuditEntry → Nat → Option String :=
  fun _ k => if k == 0 then some "transient" else none

/-- A concrete InsertOne outcome that fails every attempt. -/
def alwaysFailInsertOne : AuditEntry → Nat → Option String :=
  fun _ _ => some "boom"

/-- Unfolding equation for mongoRepository.Insert in terms of the loop. -/
theorem Insert_eq (config : Config) (now : Int) (newID : ObjectID)
    (insertOne : AuditEntry → Nat → Option String) (entry : AuditEntry) :
    mongoRepository.Insert config now newID insertOne entry =
      finishInsert config.maxRetries
        (attemptLoop (insertOne (fillDefaults now newID entry)) config.retryDelay 0
          (config.maxRetries + 1).toNat) := rfl

/-- finishInsert keeps the attempt count of the trace. -/
theorem finishInsert_attempts (m : Int) (t : InsertTrace) :
    (finishInsert m t).attempts = t.attempts := by
  cases t with
  | mk a s ex => cases ex <;> rfl


/-- Step equation: with no iterations left, the loop made no attempt and
the err variable still holds nil. -/
theorem attemptLoop_zero (f : Nat → Option String) (d : Int) (attempt : Nat) :
    attemptLoop f d attempt 0 = ⟨0, [], LoopExit.exhausted none⟩ := rfl

/-- Step equation: a successful attempt exits the loop at once. -/
theorem attemptLoop_step_success (f : Nat → Option String) (d : Int)
    (attempt rem : Nat) (he : f attempt = none) :
    attemptLoop f d attempt (rem + 1) = ⟨1, [], LoopExit.success⟩ := by
  conv_lhs => rw [attemptLoop.eq_def]
  simp only [he]

/-- Step equation: a failure on the last allowed attempt ends the loop
without sleeping. -/
theorem attemptLoop_last_fail (f : Nat → Option String) (d : Int)
    (attempt : Nat) (e : String) (he : f attempt = some e) :
    attemptLoop f d attempt 1 = ⟨1, [], LoopExit.exhausted (some e)⟩ := by
  conv_lhs => rw [attemptLoop.eq_def]
  simp only [he]

/-- Step equation: a failure with iterations to spare sleeps once and
continues with the next attempt. -/
theorem attemptLoop_step_fail (f : Nat → Option String) (d : Int)
    (attempt r : Nat) (e : String) (he : f attempt = some e) :
    attemptLoop f d attempt (r + 2) =
      ⟨(attemptLoop f d (attempt + 1) (r + 1)).attempts + 1,
       d :: (attemptLoop f d (attempt + 1) (r + 1)).sleeps,
       (attemptLoop f d (attempt + 1) (r + 1)).exit⟩ := by
  conv_lhs => rw [attemptLoop.eq_def]
  simp only [he]

/-- When every allowed attempt fails, the retry loop makes them all,
sleeps between consecutive attempts, and ends exhausted with the error of
the last attempt. -/
theorem attemptLoop_all_fail (f : Nat → Option String) (d : Int) :
    ∀ (rem attempt : Nat), (∀ j, j ≤ rem → (f (attempt + j)).isSome) →
    attemptLoop f d attempt (rem + 1) =
      ⟨rem + 1, List.replicate rem d, LoopExit.exhausted (f (attempt + rem))⟩ := by
  intro rem
  induction rem with
  | zero =>
    intro attempt h
    obtain ⟨e, he⟩ : ∃ e, f attempt = some e := by
      have h0 := h 0 (Nat.le_refl 0)
      rw [Nat.add_zero] at h0
      exact Option.isSome_iff_exists.mp h0
    rw [attemptLoop_last_fail f d attempt e he]
    simp [he]
  | succ r ih =>
    intro attempt h
    obtain ⟨e, he⟩ : ∃ e, f attempt = some e := by
      have h0 := h 0 (Nat.zero_le _)
      rw [Nat.add_zero] at h0
      exact Option.isSome_iff_exists.mp h0
    have hshift : ∀ j, j ≤ r → (f (attempt + 1 + j)).isSome := by
      intro j hj
      have hh := h (j + 1) (by omega)
      rwa [show attempt + (j + 1) = attempt + 1 + j from by omega] at hh
    have hrec := ih (attempt + 1) hshift
    rw [show r + 1 + 1 = r + 2 from rfl, attemptLoop_step_fail f d attempt r e he, hrec]
    rw [show attempt + 1 + r = attempt + (r + 1) from by omega]
    simp [List.replicate_succ]

/-- When the attempt at relative index k is the first to succeed and is
allowed by the iteration budget, the loop stops right there: k earlier
failures, k sleeps, success. -/
theorem attemptLoop_first_success (f : Nat → Option String) (d : Int) :
    ∀ (k rem attempt : Nat), k ≤ rem → (∀ j, j < k → (f (attempt + j)).isSome) →
    f (attempt + k) = none →
    attemptLoop f d attempt (rem + 1) = ⟨k + 1, List.replicate k d, LoopExit.success⟩ := by
  intro k
  induction k with
  | zero =>
    intro rem attempt _ _ hk
    rw [Nat.add_zero] at hk
    rw [attemptLoop_step_success f d attempt rem hk]
    simp
  | succ k ih =>
    intro rem attempt hle hfail hk
    obtain ⟨e, he⟩ : ∃ e, f attempt = some e := by
      have h0 := hfail 0 (Nat.succ_pos k)
      rw [Nat.add_zero] at h0
      exact Option.isSome_iff_exists.mp h0
    obtain ⟨r, rfl⟩ : ∃ r, rem = r + 1 := ⟨rem - 1, by omega⟩
    have hrec := ih r (attempt + 1) (by omega)
      (fun j hj => by
        have hh := hfail (j + 1) (by omega)
        rwa [show attempt + (j + 1) = attempt + 1 + j from by omega] at hh)
      (by rwa [show attempt + 1 + k = attempt + (k + 1) from by omega])
    rw [show r + 1 + 1 = r + 2 from rfl, attemptLoop_step_fail f d attempt r e he, hrec]
    simp [List.replicate_succ]

/-- The loop never makes more attempts than its iteration budget. -/
theorem attemptLoop_attempts_le (f : Nat → Option String) (d : Int) :
    ∀ (rem attempt : Nat), (attemptLoop f d attempt rem).attempts ≤ rem := by
  intro rem
  induction rem with
  | zero => intro attempt; rw [attemptLoop_zero]
  | succ r ih =>
    intro attempt
    cases hf : f attempt with
    | none => simp [attemptLoop_step_success f d attempt r hf]
    | some e =>
      cases r with
      | zero => simp [attemptLoop_last_fail f d attempt e hf]
      | succ r2 =>
        have hb := ih (attempt + 1)
        rw [show r2 + 1 + 1 = r2 + 2 from rfl, attemptLoop_step_fail f d attempt r2 e hf]
        simp only []
        omega

/-- C1 counterexample: on a concrete builder, calling Error with a non-nil
error and then Success(true) leaves the success flag true, refuting the
claim that this order also yields false. -/
theorem c1_error_then_success_counterexample :
    ¬(((sampleBuilder.Error (some "boom")).Success true).entry.success = false) := by
  decide

/-- C1 (amended): Error with a non-nil error forces success to false at
the moment of the call, so Success(true) followed by Error yields false;
but a later Success(true) overwrites the flag, so Error followed by
Success(true) yields true — the last call wins, Error is not a one-way
override. -/
theorem c1_error_success_last_call_wins (b : AuditBuilder) (msg : String) :
    ((b.Success true).Error (some msg)).entry.success = false ∧
    ((b.Error (some msg)).Success true).entry.success = true :=
  ⟨rfl, rfl⟩

/-- C2 counterexample: with a configuration allowing one retry, Insert
under an already-cancelled context (every InsertOne call failing with the
context cancellation error) still sleeps the retry delay once and makes a
second attempt, refuting the claim that it neither sleeps nor re-attempts
after cancellation. -/
theorem c2_cancelled_context_counterexample :
    ¬((mongoRepository.Insert retryOnceConfig 0 oidFresh cancelledInsertOne entryA).sleeps = [] ∧
      (mongoRepository.Insert retryOnceConfig 0 oidFresh cancelledInsertOne entryA).attempts ≤ 1) := by
  decide

/-- C2 (amended): Insert does not observe context cancellation itself: on
an already-cancelled context every attempt fails with the cancellation
error, the fixed retry delay is slept between consecutive attempts as
usual, all MaxRetries+1 attempts are made, and the cancellation error is
finally returned wrapped with the attempt count. -/
theorem c2_cancelled_context_retries_exhaustively (config : Config) (now : Int)
    (newID : ObjectID) (entry : AuditEntry) (hn : 0 ≤ config.maxRetries) :
    mongoRepository.Insert config now newID cancelledInsertOne entry =
      ⟨config.maxRetries.toNat + 1,
       List.replicate config.maxRetries.toNat config.retryDelay,
       some (wrapAttemptMsg config.maxRetries (some "context canceled"))⟩ := by
  have htoNat : (config.maxRetries + 1).toNat = config.maxRetries.toNat + 1 := by omega
  rw [Insert_eq, htoNat]
  rw [attemptLoop_all_fail (cancelledInsertOne (fillDefaults now newID entry))
    config.retryDelay config.maxRetries.toNat 0 (fun j hj => rfl)]
  rfl

/-- C2 witness: the amended theorem evaluated on the concrete one-retry
configuration. -/
theorem c2_cancelled_context_witness :
    mongoRepository.Insert retryOnceConfig 0 oidFresh cancelledInsertOne entryA =
      ⟨2, [5], some (wrapAttemptMsg 1 (some "context canceled"))⟩ := by
  rw [c2_cancelled_context_retries_exhaustively retryOnceConfig 0 oidFresh entryA (by decide)]
  decide

/-- C3: with MaxRetries = n at least zero, Insert makes at most n+1
InsertOne attempts; if every allowed attempt fails it makes exactly n+1
attempts, sleeps the fixed RetryDelay exactly n times (once between each
pair of consecutive attempts), and returns the error of the last attempt
wrapped with the attempt count n+1; if some attempt is the first to
succeed, Insert returns nil right there with no further attempts and no
further sleeps. -/
theorem c3_insert_retry_contract (config : Config) (now : Int) (newID : ObjectID)
    (insertOne : AuditEntry → Nat → Option String) (entry : AuditEntry)
    (hn : 0 ≤ config.maxRetries) :
    (mongoRepository.Insert config now newID insertOne entry).attempts ≤
      config.maxRetries.toNat + 1 ∧
    ((∀ k, k ≤ config.maxRetries.toNat →
        (insertOne (fillDefaults now newID entry) k).isSome) →
      mongoRepository.Insert config now newID insertOne entry =
        ⟨config.maxRetries.toNat + 1,
         List.replicate config.maxRetries.toNat config.retryDelay,
         some (wrapAttemptMsg config.maxRetries
           (insertOne (fillDefaults now newID entry) config.maxRetries.toNat))⟩) ∧
    (∀ k, k ≤ config.maxRetries.toNat →
      insertOne (fillDefaults now newID entry) k = none →
      (∀ j, j < k → (insertOne (fillDefaults now newID entry) j).isSome) →
      mongoRepository.Insert config now newID insertOne entry =
        ⟨k + 1, List.replicate k config.retryDelay, none⟩) := by
  have htoNat : (config.maxRetries + 1).toNat = config.maxRetries.toNat + 1 := by omega
  refine ⟨?_, ?_, ?_⟩
  · rw [Insert_eq, finishInsert_attempts, htoNat]
    exact attemptLoop_attempts_le _ _ _ _
  · intro hall
    rw [Insert_eq, htoNat]
    rw [attemptLoop_all_fail (insertOne (fillDefaults now newID entry))
      config.retryDelay config.maxRetries.toNat 0 (fun j hj => by simpa using hall j hj)]
    simp [finishInsert]
  · intro k hk hnone hbefore
    rw [Insert_eq, htoNat]
    rw [attemptLoop_first_success (insertOne (fillDefaults now newID entry))
      config.retryDelay k config.maxRetries.toNat 0 hk
      (fun j hj => by simpa using hbefore j hj) (by simpa using hnone)]
    rfl

/-- C3 witness: on the concrete two-retry configuration, an InsertOne
outcome failing only on the first attempt gives success after two attempts
and one sleep, and an outcome failing always gives the wrapped error after
three attempts and two sleeps. -/
theorem c3_insert_retry_contract_witness :
    mongoRepository.Insert retryTwiceConfig 0 oidFresh failOnceInsertOne entryA =
      ⟨2, [7], none⟩ ∧
    mongoRepository.Insert retryTwiceConfig 0 oidFresh alwaysFailInsertOne entryA =
      ⟨3, [7, 7], some (wrapAttemptMsg 2 (some "boom"))⟩ := by
  constructor
  · rw [(c3_insert_retry_contract retryTwiceConfig 0 oidFresh failOnceInsertOne entryA
      (by decide)).2.2 1 (by decide) (by decide)
      (fun j hj => by
        have hj0 : j = 0 := by omega
        rw [hj0]; decide)]
    decide
  · rw [(c3_insert_retry_contract retryTwiceConfig 0 oidFresh alwaysFailInsertOne entryA
      (by decide)).2.1 (fun k hk => rfl)]
    decide

/-- The code validator accepts an entry exactly when none of the defects
named by the spec is present. -/
theorem validateAuditEntry_none_iff (entry : AuditEntry) :
    auditService.validateAuditEntry entry = none ↔ entryDefect entry = false := by
  unfold auditService.validateAuditEntry entryDefect
  split_ifs <;> simp_all

/-- The code validator accepts a query exactly when none of the defects
named by the spec is present. -/
theorem validateAuditQuery_none_iff (query : AuditQuery) :
    auditService.validateAuditQuery query = none ↔ queryDefect query = false := by
  unfold auditService.validateAuditQuery queryDefect
  split_ifs with h1 h2 h3 h4 <;> try simp_all
  cases hfind : query.actions.find? (fun a => !(validAction a)) with
  | none =>
    rw [List.find?_eq_none] at hfind
    simp_all [List.any_eq_true]
  | some a =>
    have hp := List.find?_some hfind
    have hmem := List.mem_of_find?_eq_some hfind
    simp_all [List.any_eq_true]
    exact ⟨a, hmem, by simpa using hp⟩

/-- C5: an entry with an empty action, actor id, actor type, resource
type or resource id, or with an actor type or action outside the closed
enums, is rejected by LogAction with a validation error and is never
handed to Repository.Insert; an entry with none of these defects is
delegated to Repository.Insert unchanged. -/
theorem c5_log_action_validation (entry : AuditEntry) :
    (entryDefect entry = true →
      ∃ msg, auditService.LogAction entry = Except.error msg) ∧
    (entryDefect entry = false →
      auditService.LogAction entry = Except.ok entry) := by
  constructor
  · intro hdef
    cases hval : auditService.validateAuditEntry entry with
    | none =>
      rw [validateAuditEntry_none_iff] at hval
      rw [hval] at hdef
      exact absurd hdef (by simp)
    | some msg =>
      refine ⟨"invalid audit entry: " ++ msg, ?_⟩
      unfold auditService.LogAction
      rw [hval]
  · intro hok
    have hval := (validateAuditEntry_none_iff entry).mpr hok
    unfold auditService.LogAction
    rw [hval]

/-- C5 witness: the concrete entry with an empty actor id is rejected,
and the concrete valid entry is delegated unchanged. -/
theorem c5_log_action_validation_witness :
    (∃ msg, auditService.LogAction badEntry = Except.error msg) ∧
    auditService.LogAction entryA = Except.ok entryA :=
  ⟨(c5_log_action_validation badEntry).1 (by decide),
   (c5_log_action_validation entryA).2 (by decide)⟩

/-- C6: a query with a negative limit, a negative offset, both times set
with start strictly after end, a non-empty actor type outside the closed
enum, or any listed action outside the closed enum, is rejected by
GetHistory with a validation error and Repository.FindByQuery is never
called; every other query is delegated to Repository.FindByQuery, and in
particular equal start and end times are accepted. -/
theorem c6_get_history_validation (store : List AuditEntry) (query : AuditQuery) :
    (queryDefect query = true →
      ∃ msg, auditService.GetHistory store query = Except.error msg) ∧
    (queryDefect query = false →
      auditService.GetHistory store query =
        Except.ok (mongoRepository.FindByQuery store query)) := by
  constructor
  · intro hdef
    cases hval : auditService.validateAuditQuery query with
    | none =>
      rw [validateAuditQuery_none_iff] at hval
      rw [hval] at hdef
      exact absurd hdef (by simp)
    | some msg =>
      refine ⟨"invalid query: " ++ msg, ?_⟩
      unfold auditService.GetHistory
      rw [hval]
  · intro hok
    have hval := (validateAuditQuery_none_iff query).mpr hok
    unfold auditService.GetHistory
    rw [hval]

/-- C6 witness: the concrete query with a negative limit is rejected; the
concrete query whose start and end times are equal is delegated. -/
theorem c6_get_history_validation_witness :
    (∃ msg, auditService.GetHistory sampleStore negativeLimitQuery = Except.error msg) ∧
    auditService.GetHistory sampleStore equalTimesQuery =
      Except.ok (mongoRepository.FindByQuery sampleStore equalTimesQuery) :=
  ⟨(c6_get_history_validation sampleStore negativeLimitQuery).1 (by decide),
   (c6_get_history_validation sampleStore equalTimesQuery).2 (by decide)⟩

/-- C7: a syntactically valid identifier that matches no stored entry
makes FindByID return the not-found sentinel ok none (a nil entry with a
nil error), which is a different value from every error result. -/
theorem c7_find_by_id_not_found (store : List AuditEntry) (id : String)
    (hvalid : validObjectIDHex id = true)
    (habsent : ∀ e, e ∈ store → e.id ≠ ⟨id⟩) :
    mongoRepository.FindByID store id = Except.ok none ∧
    ∀ msg, mongoRepository.FindByID store id ≠ Except.error msg := by
  have hparse : ObjectIDFromHex id = Except.ok ⟨id⟩ := by
    unfold ObjectIDFromHex
    rw [if_pos hvalid]
  have hfind : store.find? (fun entry => entry.id == (⟨id⟩ : ObjectID)) = none := by
    rw [List.find?_eq_none]
    intro e he
    simpa using habsent e he
  have hres : mongoRepository.FindByID store id = Except.ok none := by
    unfold mongoRepository.FindByID
    rw [hparse]
    simp only [hfind]
  exact ⟨hres, fun msg => by rw [hres]; exact fun h => Except.noConfusion h⟩

/-- C7 witness: the fresh concrete id is well formed and absent from the
concrete collection, and FindByID returns the not-found sentinel on it. -/
theorem c7_find_by_id_not_found_witness :
    mongoRepository.FindByID sampleStore "507f1f77bcf86cd799439099" = Except.ok none :=
  (c7_find_by_id_not_found sampleStore "507f1f77bcf86cd799439099" (by decide)
    (by decide)).1

/-- C9: a non-empty id that is not 24 hexadecimal characters makes
FindByID, and hence GetByID, return the invalid-ID-format error rather
than the not-found sentinel or any ok result. -/
theorem c9_malformed_id_is_error (store : List AuditEntry) (id : String)
    (hne : id ≠ "") (hbad : validObjectIDHex id = false) :
    mongoRepository.FindByID store id =
      Except.error ("invalid ID format: " ++ "the provided hex string is not a valid ObjectID") ∧
    auditService.GetByID store id =
      Except.error ("invalid ID format: " ++ "the provided hex string is not a valid ObjectID") ∧
    ∀ e, mongoRepository.FindByID store id ≠ Except.ok e := by
  have hparse : ObjectIDFromHex id =
      Except.error "the provided hex string is not a valid ObjectID" := by
    unfold ObjectIDFromHex
    rw [if_neg (by simp [hbad])]
  have hres : mongoRepository.FindByID store id =
      Except.error ("invalid ID format: " ++ "the provided hex string is not a valid ObjectID") := by
    unfold mongoRepository.FindByID
    rw [hparse]
  refine ⟨hres, ?_, fun e => by rw [hres]; exact fun h => Except.noConfusion h⟩
  unfold auditService.GetByID
  rw [if_neg (by simpa using hne)]
  exact hres

/-- C9 witness: a concrete malformed id produces the invalid-ID-format
error through both FindByID and GetByID. -/
theorem c9_malformed_id_is_error_witness :
    mongoRepository.FindByID sampleStore "not-a-hex-id" =
      Except.error ("invalid ID format: " ++ "the provided hex string is not a valid ObjectID") ∧
    auditService.GetByID sampleStore "not-a-hex-id" =
      Except.error ("invalid ID format: " ++ "the provided hex string is not a valid ObjectID") :=
  ⟨(c9_malformed_id_is_error sampleStore "not-a-hex-id" (by decide) (by decide)).1,
   (c9_malformed_id_is_error sampleStore "not-a-hex-id" (by decide) (by decide)).2.1⟩

/-- C10: for a non-empty actor id and non-negative limit, GetActorHistory
accepts every actor type string without any enum check and delegates to
Repository.FindByActor; an empty actor type contributes no type clause to
the actor filter, while a non-empty actor type, enum member or not, is
passed through as an equality clause. -/
theorem c10_actor_history_type_unchecked (store : List AuditEntry)
    (actorID : String) (actorType : ActorType) (limit : Int)
    (hid : actorID ≠ "") (hlim : 0 ≤ limit) :
    auditService.GetActorHistory store actorID actorType limit =
      Except.ok (mongoRepository.FindByActor store actorID actorType limit) ∧
    (actorType = "" →
      actorFilter actorID actorType = [FilterClause.eqStr "actor.id" actorID]) ∧
    (actorType ≠ "" →
      actorFilter actorID actorType =
        [FilterClause.eqStr "actor.id" actorID, FilterClause.eqStr "actor.type" actorType]) := by
  refine ⟨?_, ?_, ?_⟩
  · unfold auditService.GetActorHistory
    rw [if_neg (by simpa using hid), if_neg (by omega)]
  · intro hty
    unfold actorFilter
    rw [if_neg (by simp [hty])]
  · intro hty
    unfold actorFilter
    rw [if_pos hty]

/-- C10 witness: the string robot is outside the closed actor-type enum,
yet GetActorHistory on it succeeds and the filter carries it as an
equality clause; with the empty actor type the clause is omitted. -/
theorem c10_actor_history_type_unchecked_witness :
    validActorType "robot" = false ∧
    auditService.GetActorHistory sampleStore "u1" "robot" 10 =
      Except.ok (mongoRepository.FindByActor sampleStore "u1" "robot" 10) ∧
    actorFilter "u1" "robot" =
      [FilterClause.eqStr "actor.id" "u1", FilterClause.eqStr "actor.type" "robot"] ∧
    actorFilter "u1" "" = [FilterClause.eqStr "actor.id" "u1"] :=
  ⟨by decide,
   (c10_actor_history_type_unchecked sampleStore "u1" "robot" 10 (by decide) (by decide)).1,
   (c10_actor_history_type_unchecked sampleStore "u1" "robot" 10 (by decide) (by decide)).2.2
     (by decide),
   (c10_actor_history_type_unchecked sampleStore "u1" "" 10 (by decide) (by decide)).2.1 rfl⟩

/-- Membership in a conditional singleton list. -/
theorem mem_ite_singleton {α : Type} {p : Prop} [Decidable p] (c x : α) :
    (c ∈ if p then [x] else []) ↔ p ∧ c = x := by
  split_ifs with h <;> simp [h]

/-- Membership in the success chunk of the filter. -/
theorem mem_success_chunk (osucc : Option Bool) (c : FilterClause) :
    (c ∈ match osucc with
          | some b => [FilterClause.eqBool "success" b]
          | none => ([] : BsonM)) ↔
      ∃ b, osucc = some b ∧ c = FilterClause.eqBool "success" b := by
  cases osucc <;> simp

/-- C8: the filter built from a query contains exactly the clauses of the
present fields: equality clauses for the non-empty actor id, actor type,
session id, resource type and resource id and for a set success flag, one
membership clause for a non-empty action set, and one timestamp range
clause carrying the optional inclusive bounds when at least one of the
times is set; absent or empty fields contribute no clause. -/
theorem c8_build_filter_clauses (query : AuditQuery) (c : FilterClause) :
    c ∈ mongoRepository.buildFilter query ↔
      (query.actorID ≠ "" ∧ c = FilterClause.eqStr "actor.id" query.actorID) ∨
      (query.actorType ≠ "" ∧ c = FilterClause.eqStr "actor.type" query.actorType) ∨
      (query.sessionID ≠ "" ∧ c = FilterClause.eqStr "actor.session_id" query.sessionID) ∨
      (query.actions ≠ [] ∧ c = FilterClause.inList "action" query.actions) ∨
      (query.resourceType ≠ "" ∧ c = FilterClause.eqStr "resource.type" query.resourceType) ∨
      (query.resourceID ≠ "" ∧ c = FilterClause.eqStr "resource.id" query.resourceID) ∨
      (∃ b, query.success = some b ∧ c = FilterClause.eqBool "success" b) ∨
      ((query.startTime.isSome ∨ query.endTime.isSome) ∧
        c = FilterClause.timeRange "timestamp" query.startTime query.endTime) := by
  unfold mongoRepository.buildFilter
  simp only [List.mem_append, mem_ite_singleton, mem_success_chunk, gt_iff_lt,
    List.length_pos, Bool.or_eq_true, Option.isSome_iff_exists, or_assoc]

/-- C4 counterexample: on a concrete two-entry collection and a query
with zero limit and offset one, FindByQuery does not return every match
from offset zero — the skip is applied independently of the limit — so
the zero-limit case of the claim fails. -/
theorem c4_zero_limit_positive_offset_counterexample :
    zeroLimitOffsetQuery.limit = 0 ∧
    (mongoRepository.FindByQuery sampleStore zeroLimitOffsetQuery).entries ≠
      sortByTimestampDesc
        (sampleStore.filter (matchesFilter (mongoRepository.buildFilter zeroLimitOffsetQuery))) := by
  exact ⟨rfl, by decide⟩

/-- C4 (amended): Total always counts every filter match ignoring
pagination; the newest-first ordering of the matches is sorted descending
by timestamp and is a permutation of the matches; Limit and Offset are
applied independently, each only when positive: with Limit = 0 and
Offset at most 0 the page is every match of that ordering, with Limit = 0
and Offset = O positive the page is the matches from position O onward,
and with Limit = L positive the page is the entries at positions
[O, O+L) of the ordering (position 0 when Offset is not positive);
HasMore is true exactly when the limit is positive and
Offset + returned count is less than Total. -/
theorem c4_find_by_query_pagination (store : List AuditEntry) (query : AuditQuery) :
    (mongoRepository.FindByQuery store query).total =
      ((store.filter (matchesFilter (mongoRepository.buildFilter query))).length : Int) ∧
    List.Sorted tsDesc
      (sortByTimestampDesc (store.filter (matchesFilter (mongoRepository.buildFilter query)))) ∧
    (sortByTimestampDesc (store.filter (matchesFilter (mongoRepository.buildFilter query)))).Perm
      (store.filter (matchesFilter (mongoRepository.buildFilter query))) ∧
    (query.limit = 0 → query.offset ≤ 0 →
      (mongoRepository.FindByQuery store query).entries =
        sortByTimestampDesc (store.filter (matchesFilter (mongoRepository.buildFilter query)))) ∧
    (query.limit = 0 → 0 < query.offset →
      (mongoRepository.FindByQuery store query).entries =
        (sortByTimestampDesc
          (store.filter (matchesFilter (mongoRepository.buildFilter query)))).drop
            query.offset.toNat) ∧
    (0 < query.limit →
      (mongoRepository.FindByQuery store query).entries =
        ((sortByTimestampDesc
          (store.filter (matchesFilter (mongoRepository.buildFilter query)))).drop
            query.offset.toNat).take query.limit.toNat) ∧
    ((mongoRepository.FindByQuery store query).hasMore = true ↔
      0 < query.limit ∧
        query.offset + (((mongoRepository.FindByQuery store query).entries.length : Nat) : Int) <
          (mongoRepository.FindByQuery store query).total) := by
  refine ⟨rfl, ?_, ?_, ?_, ?_, ?_, ?_⟩
  · exact List.sorted_insertionSort tsDesc _
  · exact List.perm_insertionSort tsDesc _
  · intro hl ho
    show queryPage store query = _
    unfold queryPage queryMatches
    rw [if_neg (by omega), if_neg (by omega)]
  · intro hl ho
    show queryPage store query = _
    unfold queryPage queryMatches
    rw [if_neg (by omega), if_pos ho]
  · intro hl
    show queryPage store query = _
    unfold queryPage queryMatches
    rw [if_pos hl]
    by_cases ho : 0 < query.offset
    · rw [if_pos ho]
    · rw [if_neg ho, Int.toNat_of_nonpos (show query.offset ≤ 0 from by omega),
        List.drop_zero]
  · show (decide (0 < query.limit) && _) = true ↔ _
    rw [Bool.and_eq_true, decide_eq_true_iff, decide_eq_true_iff]
    rfl

/-- C4 witness: on the concrete collection and the limit-one offset-one
query, the page is exactly the positions [1, 2) of the newest-first
ordering, and the HasMore equivalence holds. -/
theorem c4_find_by_query_pagination_witness :
    (mongoRepository.FindByQuery sampleStore pageQuery).entries =
      ((sortByTimestampDesc
        (sampleStore.filter (matchesFilter (mongoRepository.buildFilter pageQuery)))).drop
          pageQuery.offset.toNat).take pageQuery.limit.toNat ∧
    ((mongoRepository.FindByQuery sampleStore pageQuery).hasMore = true ↔
      0 < pageQuery.limit ∧
        pageQuery.offset +
            (((mongoRepository.FindByQuery sampleStore pageQuery).entries.length : Nat) : Int) <
          (mongoRepository.FindByQuery sampleStore pageQuery).total) :=
  ⟨(c4_find_by_query_pagination sampleStore pageQuery).2.2.2.2.2.1 (by decide),
   (c4_find_by_query_pagination sampleStore pageQuery).2.2.2.2.2.2⟩
